import Mathlib

set_option maxRecDepth 100000

/-!
Verification of the shared-memory worker transport prototype.

The embedding below translates the two sides of the transport:

* the host worker (src/worker-host.ts, the revision whose constants are
  `HOST_MTU = 2048`, `HOST_HEADER_SIZE = 8`): `writeToSharedBuffer`,
  `writeToClient`, `processQueue`, and the ack branch of
  `handleClientMessage`, in normal (non-test) mode;
* the client worker (src/worker-client.ts): the batch constants and one
  iteration of the `readFromHost` read loop.

Shared memory (`SharedArrayBuffer`) is modelled as a byte map
`Nat → Nat` for the data bytes together with a separate `flag` field for
the 4-byte atomic word at offset 0 (the only bytes accessed through the
`Int32Array` view).  Payloads are `List Nat` byte lists.
-/

/-- Client constant: maximum transmission unit per message (src/worker-client.ts). -/
def MTU : Nat := 2048

/-- Client constant: 4 bytes flag, 4 bytes batch size, 4 bytes message count,
4 bytes reserved (src/worker-client.ts). -/
def HEADER_SIZE : Nat := 16

/-- Client constant: maximum number of messages in a batch (src/worker-client.ts). -/
def MAX_BATCH_SIZE : Nat := 10

/-- Client constant: maximum bytes in a batch (src/worker-client.ts). -/
def MAX_BATCH_BYTES : Nat := MTU * MAX_BATCH_SIZE

/-- Client constant: timeout in milliseconds for the blocking wait (src/worker-client.ts). -/
def MAX_WAIT_TIME : Nat := 10000

/-- Host constant: maximum transmission unit (src/worker-host.ts). -/
def HOST_MTU : Nat := 2048

/-- Host constant: 4 bytes for flag and 4 bytes for message length (src/worker-host.ts). -/
def HOST_HEADER_SIZE : Nat := 8

/-- `Math.ceil(n / 4) * 4` on naturals: round up to a multiple of 4. -/
def align4 (n : Nat) : Nat := ((n + 3) / 4) * 4

/-- Host constant: allocated size of the `SharedArrayBuffer`
(`Math.ceil((HOST_MTU + HOST_HEADER_SIZE) / 4) * 4`, src/worker-host.ts). -/
def BUFFER_SIZE : Nat := align4 (HOST_MTU + HOST_HEADER_SIZE)

/-- Little-endian 4-byte encoding of a 32-bit value
(`DataView.setUint32(off, v, true)`). -/
def u32ToLE (v : Nat) : List Nat :=
  [v % 256, v / 256 % 256, v / 65536 % 256, v / 16777216 % 256]

/-- `Uint8Array.set(bs, off)`: overwrite bytes `[off, off + bs.length)` of `m`. -/
def setBytes (m : Nat → Nat) (off : Nat) (bs : List Nat) : Nat → Nat :=
  fun j => if off ≤ j ∧ j < off + bs.length then bs.getD (j - off) 0 else m j

/-- `DataView.getUint32(off, true)`: read 4 bytes little-endian. -/
def getUint32LE (m : Nat → Nat) (off : Nat) : Nat :=
  m off + 256 * m (off + 1) + 65536 * m (off + 2) + 16777216 * m (off + 3)

/-- Copy `n` bytes starting at `off` out of the shared memory into an owned list
(the `messageCopy` buffer of the client read loop). -/
def readBytes (m : Nat → Nat) (off : Nat) : Nat → List Nat
  | 0 => []
  | n + 1 => m off :: readBytes m (off + 1) n

/-- The shared region: the atomic flag word (`Int32Array` index 0) plus the
byte contents at absolute offsets (offsets 0..3 belong to the flag word and are
never accessed through the byte view by either side). -/
structure SharedState where
  flag : Nat
  mem : Nat → Nat

/-- Host-side state: the shared region plus the outbound `messageQueue`. -/
structure HostState where
  shared : SharedState
  queue : List (List Nat)

/-- Host `writeToSharedBuffer` (src/worker-host.ts): reject payloads larger
than `HOST_MTU` leaving the region untouched; otherwise write the length at
byte offset 4, the payload at offset `HOST_HEADER_SIZE`, and set the flag
word to 1 (`Atomics.store` + `Atomics.notify`). -/
def writeToSharedBuffer (s : SharedState) (data : List Nat) : SharedState :=
  if data.length > HOST_MTU then s
  else
    { flag := 1
      mem := setBytes (setBytes s.mem 4 (u32ToLE data.length)) HOST_HEADER_SIZE data }

/-- Host `writeToClient` (src/worker-host.ts, normal mode `testRunning = false`):
if the flag word is nonzero the buffer is busy and the payload is pushed onto
the queue; otherwise it is written immediately via `writeToSharedBuffer`. -/
def writeToClient (h : HostState) (data : List Nat) : HostState :=
  if h.shared.flag ≠ 0 then { h with queue := h.queue ++ [data] }
  else { h with shared := writeToSharedBuffer h.shared data }

/-- Host `processQueue` (src/worker-host.ts, normal mode): pop and write at
most one queued message, and only when the queue is non-empty and the flag
word is 0. -/
def processQueue (h : HostState) : HostState :=
  match h.queue with
  | [] => h
  | m :: rest =>
    if h.shared.flag = 0 then { shared := writeToSharedBuffer h.shared m, queue := rest }
    else h

/-- Host `handleClientMessage`, `ack` branch (src/worker-host.ts): a received
acknowledgment invokes `processQueue`. -/
def handleAck (h : HostState) : HostState := processQueue h

/-- Decode loop body of the client `readFromHost` (src/worker-client.ts):
parse `count` length-prefixed messages starting at `off`.  A message whose
declared length exceeds `MTU` is skipped without advancing past its bytes,
exactly as the `continue` in the source does. -/
def decodeMessages (m : Nat → Nat) : Nat → Nat → List (List Nat)
  | 0, _ => []
  | count + 1, off =>
    let messageLength := getUint32LE m off
    if messageLength > MTU then decodeMessages m count (off + 4)
    else readBytes m (off + 4) messageLength :: decodeMessages m count (off + 4 + messageLength)

/-- Outcome of one iteration of the client read loop: the shared region after
the iteration, the messages delivered to the application sink, the number of
acknowledgments posted on the reverse channel, whether the batch-too-large
condition was logged, and whether the loop continues. -/
structure ReadResult where
  shared : SharedState
  delivered : List (List Nat)
  acks : Nat
  loggedBatchTooLarge : Bool
  continues : Bool

/-- One iteration of the client `readFromHost` read loop (src/worker-client.ts).
`timedOut` is true when `Atomics.wait` returned timed-out, in which case the
iteration does nothing and retries.  Otherwise the iteration reads the batch
header (total byte count at offset 4, message count at offset 8); if the
declared size exceeds `MAX_BATCH_BYTES` the batch is discarded, the flag is
reset to 0, the condition is logged, and the loop continues; otherwise all
messages are decoded from offset `HEADER_SIZE`, the flag is reset to 0, and
exactly one acknowledgment is posted. -/
def clientReadIteration (s : SharedState) (timedOut : Bool) : ReadResult :=
  match timedOut with
  | true =>
    { shared := s, delivered := [], acks := 0, loggedBatchTooLarge := false, continues := true }
  | false =>
    let totalBatchSize := getUint32LE s.mem 4
    let messageCount := getUint32LE s.mem 8
    if totalBatchSize > MAX_BATCH_BYTES then
      { shared := { s with flag := 0 }, delivered := [], acks := 0
        loggedBatchTooLarge := true, continues := true }
    else
      { shared := { s with flag := 0 }
        delivered := decodeMessages s.mem messageCount HEADER_SIZE
        acks := 1, loggedBatchTooLarge := false, continues := true }

/-- One length-prefixed batch entry: `[len:4 little-endian][bytes:len]`. -/
def encodeEntry (p : List Nat) : List Nat := u32ToLE p.length ++ p

/-- The packed payload region of a batch: the concatenated entries. -/
def encodeBatchPayload (ps : List (List Nat)) : List Nat :=
  (ps.map encodeEntry).flatten

/-- Total payload byte count of a batch (the header field at offset 4). -/
def batchPayloadBytes (ps : List (List Nat)) : Nat :=
  (ps.map List.length).sum

/-- Modelled from the spec: the coordinator-side `writeBatch`, whose
implementation is absent from src/ (the host there still writes the older
single-message layout; only the client-side decoder of this layout is in
src/worker-client.ts).  Following the spec's byte layout: offset 4 holds the
batch payload byte count, offset 8 the message count, offset 12 is reserved,
and the packed `[len:4][bytes:len]` entries start at offset `HEADER_SIZE`;
the flag word is then set to 1. -/
def writeBatch (s : SharedState) (ps : List (List Nat)) : SharedState :=
  { flag := 1
    mem := setBytes
      (setBytes (setBytes s.mem 4 (u32ToLE (batchPayloadBytes ps))) 8 (u32ToLE ps.length))
      HEADER_SIZE (encodeBatchPayload ps) }

/-- The two agents of the system. -/
inductive Agent where
  | host
  | client
deriving DecidableEq

/-- Global state of the two-agent system: the shared region, the host's
outbound queue, the client's application sink (messages delivered by the read
loop, in order), and the total number of acknowledgments emitted. -/
structure SysState where
  shared : SharedState
  queue : List (List Nat)
  sink : List (List Nat)
  acks : Nat

/-- Host event: a payload is handed to `writeToClient`. -/
def stepEnqueue (s : SysState) (data : List Nat) : SysState :=
  let h := writeToClient ⟨s.shared, s.queue⟩ data
  ⟨h.shared, h.queue, s.sink, s.acks⟩

/-- Host event: an acknowledgment arrives and `handleClientMessage` runs
`processQueue`. -/
def stepAck (s : SysState) : SysState :=
  let h := handleAck ⟨s.shared, s.queue⟩
  ⟨h.shared, h.queue, s.sink, s.acks⟩

/-- Client event: the blocking wait returns and one read-loop iteration
consumes the resident batch, appending the decoded messages to the sink. -/
def stepConsume (s : SysState) : SysState :=
  let r := clientReadIteration s.shared false
  ⟨r.shared, s.queue, s.sink ++ r.delivered, s.acks + r.acks⟩

/-- Labelled step relation of the two-agent system.  Host steps are the
`writeToClient` entry point and the ack handler; client steps are a read-loop
iteration (which requires the flag word to be 1, since `Atomics.wait` on value
0 returns not-equal only when the word differs) and a timed-out wait (flag
still 0), which changes nothing. -/
inductive SysStep : SysState → Agent → SysState → Prop where
  | enqueue (s : SysState) (data : List Nat) : SysStep s Agent.host (stepEnqueue s data)
  | ackArrive (s : SysState) : SysStep s Agent.host (stepAck s)
  | consume (s : SysState) (h : s.shared.flag = 1) : SysStep s Agent.client (stepConsume s)
  | timeout (s : SysState) (h : s.shared.flag = 0) : SysStep s Agent.client s

/-- The freshly allocated, zeroed region (a new `SharedArrayBuffer` is
zero-initialized, and init stores 0 into the flag word). -/
def initialShared : SharedState := ⟨0, fun _ => 0⟩

/-- Initial system state: zeroed region, empty queue, empty sink, no acks. -/
def sysInit : SysState := ⟨initialShared, [], [], 0⟩

/-- `m` holds the bytes `bs` starting at offset `off`. -/
def agreeOn (m : Nat → Nat) (off : Nat) (bs : List Nat) : Prop :=
  ∀ i, i < bs.length → m (off + i) = bs.getD i 0

theorem agreeOn_nil (m : Nat → Nat) (off : Nat) : agreeOn m off [] := by
  intro i hi
  simp at hi

theorem agreeOn_cons (m : Nat → Nat) (off : Nat) (b : Nat) (bs : List Nat)
    (h : agreeOn m off (b :: bs)) : m off = b ∧ agreeOn m (off + 1) bs := by
  constructor
  · have := h 0 (by simp)
    simpa using this
  · intro i hi
    have := h (i + 1) (by simp; omega)
    simpa [Nat.add_comm, Nat.add_assoc, Nat.add_left_comm] using this

theorem agreeOn_append (m : Nat → Nat) (off : Nat) (a b : List Nat)
    (h : agreeOn m off (a ++ b)) :
    agreeOn m off a ∧ agreeOn m (off + a.length) b := by
  induction a generalizing off with
  | nil =>
    constructor
    · exact agreeOn_nil m off
    · simpa using h
  | cons x xs ih =>
    have hx := agreeOn_cons m off x (xs ++ b) h
    have hrest := ih (off + 1) hx.2
    refine ⟨?_, ?_⟩
    · intro i hi
      match i with
      | 0 => simpa using hx.1
      | j + 1 =>
        have := hrest.1 j (by simp at hi; omega)
        simpa [Nat.add_comm, Nat.add_assoc, Nat.add_left_comm] using this
    · have heq : off + 1 + xs.length = off + (x :: xs).length := by
        simp [Nat.add_comm, Nat.add_assoc, Nat.add_left_comm]
      rw [heq] at hrest
      exact hrest.2

theorem agreeOn_setBytes (m : Nat → Nat) (off : Nat) (bs : List Nat) :
    agreeOn (setBytes m off bs) off bs := by
  intro i hi
  simp only [setBytes]
  rw [if_pos ⟨Nat.le_add_right off i, by omega⟩]
  congr 1
  omega

theorem setBytes_below (m : Nat → Nat) (off : Nat) (bs : List Nat) (j : Nat)
    (h : j < off) : setBytes m off bs j = m j := by
  simp only [setBytes]
  rw [if_neg]
  intro hc
  omega

theorem getUint32LE_below (m : Nat → Nat) (off : Nat) (bs : List Nat) (p : Nat)
    (h : p + 4 ≤ off) : getUint32LE (setBytes m off bs) p = getUint32LE m p := by
  simp only [getUint32LE]
  rw [setBytes_below m off bs p (by omega), setBytes_below m off bs (p + 1) (by omega),
    setBytes_below m off bs (p + 2) (by omega), setBytes_below m off bs (p + 3) (by omega)]

theorem getUint32LE_of_agree (m : Nat → Nat) (off v : Nat)
    (h : agreeOn m off (u32ToLE v)) (hv : v < 4294967296) :
    getUint32LE m off = v := by
  have h0 := h 0 (by simp [u32ToLE])
  have h1 := h 1 (by simp [u32ToLE])
  have h2 := h 2 (by simp [u32ToLE])
  have h3 := h 3 (by simp [u32ToLE])
  simp only [u32ToLE, List.getD] at h0 h1 h2 h3
  simp only [getUint32LE]
  simp at h0 h1 h2 h3
  rw [h0, h1, h2, h3]
  omega

theorem readBytes_of_agree (m : Nat → Nat) (p : List Nat) :
    ∀ off, agreeOn m off p → readBytes m off p.length = p := by
  induction p with
  | nil => intro off _; rfl
  | cons x xs ih =>
    intro off h
    have hx := agreeOn_cons m off x xs h
    simp only [List.length_cons, readBytes]
    rw [hx.1, ih (off + 1) hx.2]

/-- The client decode loop inverts the batch entry encoding: if `m` holds the
packed entries of `ps` at `off` and every payload fits in the MTU, decoding
`ps.length` messages from `off` returns exactly `ps`. -/
theorem decodeMessages_encodeBatchPayload (ps : List (List Nat)) :
    ∀ off (m : Nat → Nat), agreeOn m off (encodeBatchPayload ps) →
    (∀ p ∈ ps, p.length ≤ MTU) →
    decodeMessages m ps.length off = ps := by
  induction ps with
  | nil => intro off m _ _; rfl
  | cons p rest ih =>
    intro off m hm hlen
    have hsplit : encodeBatchPayload (p :: rest) =
        (u32ToLE p.length ++ p) ++ encodeBatchPayload rest := by
      simp [encodeBatchPayload, encodeEntry]
    rw [hsplit] at hm
    have h1 := agreeOn_append m off (u32ToLE p.length ++ p) (encodeBatchPayload rest) hm
    have h2 := agreeOn_append m off (u32ToLE p.length) p h1.1
    have hlenp : p.length ≤ MTU := hlen p (by simp)
    have hlt : p.length < 4294967296 := by
      have : MTU = 2048 := rfl
      omega
    have hget : getUint32LE m off = p.length :=
      getUint32LE_of_agree m off p.length h2.1 hlt
    have hu32len : (u32ToLE p.length).length = 4 := rfl
    simp only [List.length_cons, decodeMessages, hget]
    rw [if_neg (by omega)]
    have hread : readBytes m (off + 4) p.length = p := by
      apply readBytes_of_agree
      have := h2.2
      rwa [hu32len] at this
    rw [hread]
    congr 1
    apply ih
    · have hL : (u32ToLE p.length ++ p).length = 4 + p.length := by
        simp [hu32len, Nat.add_comm]
      have := h1.2
      rw [hL] at this
      have heq : off + (4 + p.length) = off + 4 + p.length := by omega
      rwa [heq] at this
    · intro q hq
      exact hlen q (by simp [hq])

/-- A timed-out wait leaves everything unchanged and produces nothing. -/
theorem clientReadIteration_timeout_eq (s : SharedState) :
    clientReadIteration s true =
      { shared := s, delivered := [], acks := 0, loggedBatchTooLarge := false
        continues := true } := rfl

/-- Branch lemma: a resident batch whose declared size exceeds the capacity is
discarded with the flag reset and the condition logged. -/
theorem clientReadIteration_discard_eq (s : SharedState)
    (h : getUint32LE s.mem 4 > MAX_BATCH_BYTES) :
    clientReadIteration s false =
      { shared := { s with flag := 0 }, delivered := [], acks := 0
        loggedBatchTooLarge := true, continues := true } := by
  simp only [clientReadIteration]
  rw [if_pos h]

/-- Branch lemma: a resident batch within capacity is decoded, the flag is
reset, and one acknowledgment is produced. -/
theorem clientReadIteration_success_eq (s : SharedState)
    (h : ¬ getUint32LE s.mem 4 > MAX_BATCH_BYTES) :
    clientReadIteration s false =
      { shared := { s with flag := 0 }
        delivered := decodeMessages s.mem (getUint32LE s.mem 8) HEADER_SIZE
        acks := 1, loggedBatchTooLarge := false, continues := true } := by
  simp only [clientReadIteration]
  rw [if_neg h]

/-- C2: writing a batch of three payloads (each within the MTU, hence within
the batch bounds) into the shared region via the coordinator's batch write
operation and then decoding it via the constrained agent's read operation
yields exactly the same three payloads, byte-for-byte and in order. -/
theorem C2_writeBatch_readBatch_roundtrip (s : SharedState) (p1 p2 p3 : List Nat)
    (h1 : p1.length ≤ MTU) (h2 : p2.length ≤ MTU) (h3 : p3.length ≤ MTU) :
    (clientReadIteration (writeBatch s [p1, p2, p3]) false).delivered = [p1, p2, p3] := by
  have h1n : p1.length ≤ 2048 := h1
  have h2n : p2.length ≤ 2048 := h2
  have h3n : p3.length ≤ 2048 := h3
  have hbytes : batchPayloadBytes [p1, p2, p3] = p1.length + p2.length + p3.length := by
    simp [batchPayloadBytes]
    omega
  have hmdef : (writeBatch s [p1, p2, p3]).mem =
      setBytes
        (setBytes (setBytes s.mem 4 (u32ToLE (batchPayloadBytes [p1, p2, p3]))) 8 (u32ToLE 3))
        16 (encodeBatchPayload [p1, p2, p3]) := rfl
  have hg4 : getUint32LE (writeBatch s [p1, p2, p3]).mem 4 = batchPayloadBytes [p1, p2, p3] := by
    rw [hmdef]
    rw [getUint32LE_below _ 16 _ 4 (by omega)]
    rw [getUint32LE_below _ 8 _ 4 (by omega)]
    exact getUint32LE_of_agree _ 4 _ (agreeOn_setBytes s.mem 4 _) (by rw [hbytes]; omega)
  have hg8 : getUint32LE (writeBatch s [p1, p2, p3]).mem 8 = 3 := by
    rw [hmdef]
    rw [getUint32LE_below _ 16 _ 8 (by omega)]
    exact getUint32LE_of_agree _ 8 3 (agreeOn_setBytes _ 8 (u32ToLE 3)) (by omega)
  have hnot : ¬ getUint32LE (writeBatch s [p1, p2, p3]).mem 4 > MAX_BATCH_BYTES := by
    rw [hg4, hbytes]
    have hmb : MAX_BATCH_BYTES = 20480 := rfl
    omega
  rw [clientReadIteration_success_eq _ hnot]
  show decodeMessages (writeBatch s [p1, p2, p3]).mem
      (getUint32LE (writeBatch s [p1, p2, p3]).mem 8) HEADER_SIZE = [p1, p2, p3]
  rw [hg8]
  have hdec : decodeMessages (writeBatch s [p1, p2, p3]).mem 3 16 = [p1, p2, p3] := by
    rw [hmdef]
    refine decodeMessages_encodeBatchPayload [p1, p2, p3] 16 _ (agreeOn_setBytes _ 16 _) ?_
    intro p hp
    simp only [List.mem_cons, List.not_mem_nil, or_false] at hp
    rcases hp with hp | hp | hp <;> subst hp <;> assumption
  exact hdec

/-- C2 witness: a concrete three-payload batch round-trips through the
region byte-for-byte. -/
theorem C2_witness :
    ([1, 2] : List Nat).length ≤ MTU ∧ ([] : List Nat).length ≤ MTU ∧
    ([255] : List Nat).length ≤ MTU ∧
    (clientReadIteration (writeBatch initialShared [[1, 2], [], [255]]) false).delivered =
      [[1, 2], [], [255]] :=
  ⟨by decide, by decide, by decide,
    C2_writeBatch_readBatch_roundtrip initialShared [1, 2] [] [255]
      (by decide) (by decide) (by decide)⟩

/-- C1: evaluation of the shipped code at a concrete input.  The claim says
the client's application sink receives exactly the payloads handed to
`writeToClient`, in order, without loss.  On the code in src/ this fails at
the very first payload: the host writes the single-message layout (length at
offset 4, data at offset 8) while the client decodes the batch layout
(message count at offset 8, entries from offset 16), so enqueueing the
payload `[1, 0, 0, 0]` into a fresh session makes the sink receive one empty
message instead of the payload. -/
theorem C1_payload_corrupted_end_to_end :
    (stepConsume (stepEnqueue sysInit [1, 0, 0, 0])).sink = [[]] ∧
    (stepConsume (stepEnqueue sysInit [1, 0, 0, 0])).sink ≠ [[1, 0, 0, 0]] := by
  decide

/-- C3: on every successful consumption of a batch the client emits exactly
one acknowledgment (independent of how many messages the batch holds), and on
the host every received acknowledgment runs `processQueue`, which either does
nothing or pops and writes exactly one queued message. -/
theorem C3_one_ack_per_batch_one_flush (s : SharedState) (h : HostState) :
    (¬ getUint32LE s.mem 4 > MAX_BATCH_BYTES → (clientReadIteration s false).acks = 1) ∧
    (handleAck h = h ∨
      ∃ m rest, h.queue = m :: rest ∧
        handleAck h = { shared := writeToSharedBuffer h.shared m, queue := rest }) := by
  obtain ⟨sh, q⟩ := h
  constructor
  · intro hs
    rw [clientReadIteration_success_eq s hs]
  · cases q with
    | nil => left; rfl
    | cons m rest =>
      by_cases hf : sh.flag = 0
      · right
        refine ⟨m, rest, rfl, ?_⟩
        show processQueue ⟨sh, m :: rest⟩ = _
        simp only [processQueue]
        rw [if_pos hf]
      · left
        show processQueue ⟨sh, m :: rest⟩ = _
        simp only [processQueue]
        rw [if_neg hf]

/-- Concrete client state holding a three-message batch, for the C3 witness. -/
def c3ClientState : SharedState := writeBatch initialShared [[7], [8], [9]]

/-- Concrete busy host with two queued messages, for the C3 witness. -/
def c3HostState : HostState := ⟨⟨1, fun _ => 0⟩, [[1], [2]]⟩

/-- C3 witness: the three-message batch produces exactly one acknowledgment,
and an acknowledgment at the busy host writes at most one queued message. -/
theorem C3_witness :
    (clientReadIteration c3ClientState false).acks = 1 ∧
    (handleAck c3HostState = c3HostState ∨
      ∃ m rest, c3HostState.queue = m :: rest ∧
        handleAck c3HostState =
          { shared := writeToSharedBuffer c3HostState.shared m, queue := rest }) :=
  ⟨(C3_one_ack_per_batch_one_flush c3ClientState c3HostState).1 (by decide),
   (C3_one_ack_per_batch_one_flush c3ClientState c3HostState).2⟩

/-- `writeToClient` when the region is busy only appends to the queue. -/
theorem writeToClient_busy (h : HostState) (d : List Nat) (hf : h.shared.flag ≠ 0) :
    writeToClient h d = { h with queue := h.queue ++ [d] } := by
  unfold writeToClient
  rw [if_pos hf]

/-- `writeToClient` when the region is free writes through to the buffer. -/
theorem writeToClient_free (h : HostState) (d : List Nat) (hf : h.shared.flag = 0) :
    writeToClient h d = { h with shared := writeToSharedBuffer h.shared d } := by
  unfold writeToClient
  rw [if_neg (by simp [hf])]

/-- `processQueue` does nothing while the region is busy. -/
theorem processQueue_busy (h : HostState) (hf : h.shared.flag ≠ 0) : processQueue h = h := by
  obtain ⟨sh, q⟩ := h
  cases q with
  | nil => rfl
  | cons m rest =>
    simp only [processQueue]
    rw [if_neg hf]

/-- `processQueue` does nothing when the queue is empty. -/
theorem processQueue_nil (h : HostState) (hq : h.queue = []) : processQueue h = h := by
  obtain ⟨sh, q⟩ := h
  simp only at hq
  subst hq
  rfl

/-- The client read iteration never changes the payload bytes of the region. -/
theorem clientReadIteration_mem (s : SharedState) (timedOut : Bool) :
    (clientReadIteration s timedOut).shared.mem = s.mem := by
  cases timedOut with
  | true => rfl
  | false =>
    by_cases hbig : getUint32LE s.mem 4 > MAX_BATCH_BYTES
    · rw [clientReadIteration_discard_eq _ hbig]
    · rw [clientReadIteration_success_eq _ hbig]

/-- C4: along every step of the two-agent system, a flag transition from 0 to
1 happens only on a host step, a flag transition from 1 to 0 happens only on
a client step, and client steps never write payload bytes into the region. -/
theorem C4_flag_transition_ownership (s : SysState) (a : Agent) (t : SysState)
    (hstep : SysStep s a t) :
    (s.shared.flag = 0 ∧ t.shared.flag = 1 → a = Agent.host) ∧
    (s.shared.flag = 1 ∧ t.shared.flag = 0 → a = Agent.client) ∧
    (a = Agent.client → t.shared.mem = s.shared.mem) := by
  cases hstep with
  | enqueue data =>
    refine ⟨fun _ => rfl, ?_, ?_⟩
    · rintro ⟨hf1, hf0⟩
      have hne : (stepEnqueue s data).shared.flag = 1 := by
        simp only [stepEnqueue]
        rw [writeToClient_busy ⟨s.shared, s.queue⟩ data (by simp [hf1])]
        exact hf1
      omega
    · intro hc
      exact absurd hc (by simp)
  | ackArrive =>
    refine ⟨fun _ => rfl, ?_, ?_⟩
    · rintro ⟨hf1, hf0⟩
      have hne : (stepAck s).shared.flag = 1 := by
        simp only [stepAck, handleAck]
        rw [processQueue_busy ⟨s.shared, s.queue⟩ (by simp [hf1])]
        exact hf1
      omega
    · intro hc
      exact absurd hc (by simp)
  | consume hu =>
    refine ⟨?_, fun _ => rfl, ?_⟩
    · rintro ⟨hf0, _⟩
      exact absurd hu (by omega)
    · intro _
      show (stepConsume s).shared.mem = s.shared.mem
      simp only [stepConsume]
      exact clientReadIteration_mem s.shared false
  | timeout hu =>
    refine ⟨?_, fun _ => rfl, fun _ => rfl⟩
    rintro ⟨hf0, hf1⟩
    omega

/-- Concrete system state with a resident batch, for the C4 witness. -/
def c4SysState : SysState := ⟨⟨1, fun _ => 0⟩, [], [], 0⟩

/-- C4 witness: the client consume step at a state with flag 1 performs the
1-to-0 transition, is attributed to the client, and leaves payload bytes
untouched. -/
theorem C4_witness :
    (c4SysState.shared.flag = 0 ∧ (stepConsume c4SysState).shared.flag = 1 →
      Agent.client = Agent.host) ∧
    (c4SysState.shared.flag = 1 ∧ (stepConsume c4SysState).shared.flag = 0 →
      Agent.client = Agent.client) ∧
    (Agent.client = Agent.client →
      (stepConsume c4SysState).shared.mem = c4SysState.shared.mem) :=
  C4_flag_transition_ownership c4SysState Agent.client (stepConsume c4SysState)
    (SysStep.consume c4SysState rfl)

/-- C5: when the read loop observes a batch header whose declared payload size
exceeds `MAX_BATCH_BYTES`, it discards the batch without delivering any
message, still resets the flag word to 0, leaves the payload bytes untouched,
logs the condition, and continues the loop. -/
theorem C5_oversized_batch_discarded (s : SharedState)
    (h : getUint32LE s.mem 4 > MAX_BATCH_BYTES) :
    (clientReadIteration s false).delivered = [] ∧
    (clientReadIteration s false).shared.flag = 0 ∧
    (clientReadIteration s false).shared.mem = s.mem ∧
    (clientReadIteration s false).loggedBatchTooLarge = true ∧
    (clientReadIteration s false).continues = true := by
  rw [clientReadIteration_discard_eq s h]
  exact ⟨rfl, rfl, rfl, rfl, rfl⟩

/-- Region whose header declares 20481 payload bytes, for the C5 witness. -/
def c5State : SharedState := ⟨1, setBytes (fun _ => 0) 4 (u32ToLE 20481)⟩

/-- C5 witness: a batch declaring 20481 bytes is discarded, the flag is reset,
the bytes are untouched, the condition is logged, and the loop continues. -/
theorem C5_witness :
    (clientReadIteration c5State false).delivered = [] ∧
    (clientReadIteration c5State false).shared.flag = 0 ∧
    (clientReadIteration c5State false).shared.mem = c5State.mem ∧
    (clientReadIteration c5State false).loggedBatchTooLarge = true ∧
    (clientReadIteration c5State false).continues = true :=
  C5_oversized_batch_discarded c5State (by decide)

/-- C10: the discard path for an oversized batch header emits no
acknowledgment over the reverse channel, even though the flag word is reset
to 0. -/
theorem C10_no_ack_on_discard (s : SharedState)
    (h : getUint32LE s.mem 4 > MAX_BATCH_BYTES) :
    (clientReadIteration s false).acks = 0 ∧
    (clientReadIteration s false).shared.flag = 0 := by
  rw [clientReadIteration_discard_eq s h]
  exact ⟨rfl, rfl⟩

/-- Region whose header declares 30000 payload bytes, for the C10 witness. -/
def c10State : SharedState := ⟨1, setBytes (fun _ => 0) 4 (u32ToLE 30000)⟩

/-- C10 witness: a batch declaring 30000 bytes is discarded with no
acknowledgment and the flag reset to 0. -/
theorem C10_witness :
    (clientReadIteration c10State false).acks = 0 ∧
    (clientReadIteration c10State false).shared.flag = 0 :=
  C10_no_ack_on_discard c10State (by decide)

/-- C9: a timed-out blocking wait (flag still 0) is not an error: the
iteration delivers nothing, emits no acknowledgment, leaves the flag word and
the region contents unchanged, and the loop retries. -/
theorem C9_timeout_is_noop (s : SharedState) (h : s.flag = 0) :
    (clientReadIteration s true).shared.flag = 0 ∧
    clientReadIteration s true =
      { shared := s, delivered := [], acks := 0, loggedBatchTooLarge := false
        continues := true } := ⟨h, rfl⟩

/-- C9 witness: on the fresh region (flag 0) a timed-out wait changes
nothing and produces nothing. -/
theorem C9_witness :
    (clientReadIteration initialShared true).shared.flag = 0 ∧
    clientReadIteration initialShared true =
      { shared := initialShared, delivered := [], acks := 0
        loggedBatchTooLarge := false, continues := true } :=
  C9_timeout_is_noop initialShared rfl

/-- A payload one byte over the MTU. -/
def oversizedPayload : List Nat := List.replicate 2049 7

/-- A host whose region is busy (flag 1) with an empty queue. -/
def c6BusyHost : HostState := ⟨⟨1, fun _ => 0⟩, []⟩

/-- C6 counterexample: the claim says an oversized enqueue leaves the queue
unchanged, but when the region is busy `writeToClient` performs no size check
and pushes the 2049-byte payload onto the queue. -/
theorem C6_counterexample :
    oversizedPayload.length = 2049 ∧
    (writeToClient c6BusyHost oversizedPayload).queue ≠ c6BusyHost.queue := by
  constructor
  · simp [oversizedPayload]
  · rw [writeToClient_busy c6BusyHost oversizedPayload (by decide)]
    simp [c6BusyHost]

/-- C6 (amended): an oversized payload is never written into the shared
region: when the region is free, `writeToClient` hands it to
`writeToSharedBuffer`, which rejects it (logging the error) with host state
unchanged; when the region is busy the payload is appended to the queue
unchecked, and a later flush pops it and drops it without writing. -/
theorem C6_oversized_never_written (h : HostState) (p : List Nat)
    (hp : p.length > MTU) :
    (h.shared.flag = 0 → writeToClient h p = h) ∧
    (h.shared.flag ≠ 0 → writeToClient h p = { h with queue := h.queue ++ [p] }) ∧
    (∀ rest, h.queue = p :: rest → h.shared.flag = 0 →
      processQueue h = { shared := h.shared, queue := rest }) := by
  have hbig : p.length > HOST_MTU := hp
  refine ⟨?_, ?_, ?_⟩
  · intro hf
    rw [writeToClient_free h p hf]
    unfold writeToSharedBuffer
    rw [if_pos hbig]
  · intro hf
    exact writeToClient_busy h p hf
  · intro rest hq hf
    obtain ⟨sh, q⟩ := h
    simp only at hq
    subst hq
    simp only [processQueue]
    rw [if_pos hf]
    unfold writeToSharedBuffer
    rw [if_pos hbig]

/-- A host whose region is free (flag 0) with an empty queue. -/
def c6FreeHost : HostState := ⟨initialShared, []⟩

/-- C6 witness: the amended statement at a free host and the 2049-byte
payload. -/
theorem C6_witness :
    oversizedPayload.length > MTU ∧
    ((c6FreeHost.shared.flag = 0 → writeToClient c6FreeHost oversizedPayload = c6FreeHost) ∧
     (c6FreeHost.shared.flag ≠ 0 →
       writeToClient c6FreeHost oversizedPayload =
         { c6FreeHost with queue := c6FreeHost.queue ++ [oversizedPayload] }) ∧
     (∀ rest, c6FreeHost.queue = oversizedPayload :: rest → c6FreeHost.shared.flag = 0 →
       processQueue c6FreeHost = { shared := c6FreeHost.shared, queue := rest })) :=
  ⟨by simp [oversizedPayload, MTU], C6_oversized_never_written c6FreeHost oversizedPayload
    (by simp [oversizedPayload, MTU])⟩

/-- A busy host whose queue already holds 200 pending payloads. -/
def c7FullHost : HostState := ⟨⟨1, fun _ => 0⟩, List.replicate 200 [0]⟩

/-- C7 counterexample: the claim says an enqueue at queue capacity fails
without growing the queue, but with 200 payloads already pending (the bound
the design notes attribute to the protocol) `writeToClient` still appends,
growing the queue to 201. -/
theorem C7_counterexample :
    c7FullHost.queue.length = 200 ∧
    (writeToClient c7FullHost [5]).queue.length = 201 := by
  constructor
  · simp [c7FullHost]
  · rw [writeToClient_busy c7FullHost [5] (by decide)]
    simp [c7FullHost]

/-- C7 (amended): the outbound queue is unbounded: no `MAX_QUEUE_SIZE` exists
in the code, and whenever the region is busy `writeToClient` appends the
payload regardless of the current queue length, reporting no rejection to the
caller. -/
theorem C7_queue_unbounded (h : HostState) (d : List Nat)
    (hf : h.shared.flag ≠ 0) :
    (writeToClient h d).queue = h.queue ++ [d] ∧
    (writeToClient h d).queue.length = h.queue.length + 1 := by
  rw [writeToClient_busy h d hf]
  exact ⟨rfl, by simp⟩

/-- C7 witness: the amended statement at the 200-deep busy host. -/
theorem C7_witness :
    (writeToClient c7FullHost [5]).queue = c7FullHost.queue ++ [[5]] ∧
    (writeToClient c7FullHost [5]).queue.length = c7FullHost.queue.length + 1 :=
  C7_queue_unbounded c7FullHost [5] (by decide)

/-- C8 counterexample: the allocated region size (`BUFFER_SIZE` in the host)
is not `align4(HEADER_SIZE + MAX_BATCH_BYTES)`: the host sizes the buffer for
its own single-message layout (2056 bytes), not for the client's batch
layout (20496 bytes). -/
theorem C8_counterexample : BUFFER_SIZE ≠ align4 (HEADER_SIZE + MAX_BATCH_BYTES) := by
  decide

/-- C8 (amended): the client-side layout constants are as claimed
(`MTU = 2048`, `HEADER_SIZE = 16`, `MAX_BATCH_SIZE = 10`,
`MAX_BATCH_BYTES = MTU * MAX_BATCH_SIZE = 20480`), but the allocated region
size is the host's `align4(HOST_MTU + HOST_HEADER_SIZE) = 2056` with the
host's 8-byte single-message header, not
`align4(HEADER_SIZE + MAX_BATCH_BYTES) = 20496`. -/
theorem C8_layout_constants :
    MTU = 2048 ∧ HEADER_SIZE = 16 ∧ MAX_BATCH_SIZE = 10 ∧
    MAX_BATCH_BYTES = MTU * MAX_BATCH_SIZE ∧ MAX_BATCH_BYTES = 20480 ∧
    HOST_HEADER_SIZE = 8 ∧ BUFFER_SIZE = align4 (HOST_MTU + HOST_HEADER_SIZE) ∧
    BUFFER_SIZE = 2056 ∧ align4 (HEADER_SIZE + MAX_BATCH_BYTES) = 20496 := by
  decide
